import Mathlib

/-!
# Verification of `PRNet/utils/visualizer.py` (Training Artifact Logger)

Shallow embedding of the visualization/logging helper of the EDA-AI
repository (`src/PRNet/utils/visualizer.py`) and proofs of the spec's
claims about it.

Modelling conventions:

* Images and converted arrays are opaque data, represented by `Nat` ids.
  The external tensor-to-array converter `utils.tensor2im` (a black-box
  collaborator per the spec) is a parameter
  `conv : Nat → Option (Nat × Nat)` returning `(array, mode)`;
  `none` models the converter (or the subsequent PNG write) raising an
  exception at that image.
* The filesystem is an association list `Fs` from path to written
  content `(array, mode)`; `utils.save_image` overwrites the entry for
  its path.
* The HTML index builder (`html.py`, a collaborator outside this file)
  is modelled as a recorder of the calls made on it (`Webpage.events`),
  since the source only ever invokes `get_image_dir` and `add_header`.
* Python exceptions propagate: each effectful function returns the
  state at the moment of the exception together with an error flag
  (`Bool`, `true` = an exception escaped), or `Option` when the
  exception fires before any effect.
* String formatting of floats (`'%.3f'`) is modelled on the exact
  rational value of the IEEE-754 binary64 argument, correctly rounded
  to three decimals with ties to even, which is what CPython's `%.3f`
  produces.
-/

set_option autoImplicit false

namespace Visualizer

/-! ### Path helpers (collaborators from `os.path` / `ntpath`) -/

/-- `os.path.join(a, b)` on POSIX: `b` absolute replaces `a`; otherwise
insert `'/'` unless `a` is empty or already ends with a separator. -/
def pathJoin (a b : String) : String :=
  if b.toList.head? = some '/' then b
  else if a = "" ∨ a.toList.getLast? = some '/' then a ++ b
  else a ++ "/" ++ b

/-- `ntpath.basename(p)`: the part of `p` after the last `'/'` or `'\\'`
separator, a leading drive-letter prefix (`"X:"`) removed when no
separator follows it. -/
def ntBasename (p : String) : String :=
  let cs := p.toList
  let cs := if 2 ≤ cs.length ∧ cs.get? 1 = some ':' then cs.drop 2 else cs
  String.mk (cs.foldl (fun acc c => if c = '/' ∨ c = '\\' then [] else acc.concat c) [])

/-- Index of the last `'.'` in a character list, if any. -/
def lastDotIdx (cs : List Char) : Option Nat :=
  (List.range cs.length).foldl
    (fun acc i => if cs.get? i = some '.' then some i else acc) none

/-- `os.path.splitext(p)[0]` for a path `p` containing no separator
(the argument here is always the output of `ntpath.basename`): drop the
extension at the last dot, unless every character before that dot is
itself a dot (leading-dot filenames such as `".bashrc"` keep their
name). -/
def splitextRoot (p : String) : String :=
  let cs := p.toList
  match lastDotIdx cs with
  | none => p
  | some d =>
    if (cs.take d).all (· = '.') then p
    else String.mk (cs.take d)

/-- `'%.3d' % n` for a natural number: decimal digits zero-padded on
the left to width 3. -/
def pad3 (n : Nat) : String :=
  if n < 10 then "00" ++ toString n
  else if n < 100 then "0" ++ toString n
  else toString n

/-- A nonnegative binary64 value, exactly: the dyadic rational
`m / 2^e`.  Every nonnegative IEEE-754 double is of this form; Python
floats enter the model as such pairs. -/
structure Dyadic where
  m : Nat
  e : Nat
  deriving Repr, DecidableEq

/-! ### Filesystem model -/

/-- A file's content: the `(array, mode)` pair handed to
`utils.save_image`. -/
abbrev Content := Nat × Nat

/-- The filesystem: an association list from path to content.  Lookup
takes the first hit, so a write prepends after erasing the old entry. -/
abbrev Fs := List (String × Content)

/-- `utils.save_image(im, path, mode)`: overwrite the file at `path`
with content `(im, mode)`. -/
def fsWrite (fs : Fs) (path : String) (c : Content) : Fs :=
  (path, c) :: fs.filter (fun e => e.1 ≠ path)

/-- Content of the file at `path`, if present. -/
def fsRead (fs : Fs) (path : String) : Option Content :=
  (fs.find? (fun e => e.1 = path)).map Prod.snd

/-- The set of paths present in the filesystem. -/
def fsPaths (fs : Fs) : List String := (fs.map Prod.fst).dedup

/-! ### The per-image save loop

Both `save_images` and the two display functions run the same loop:
for each `(label, image)` pair in order, convert via `utils.tensor2im`
and write the result with `utils.save_image` to a path derived from
the label.  An exception at one image (modelled by `conv` returning
`none`) escapes at once: earlier writes remain, later pairs are never
attempted. -/

def saveLoop (conv : Nat → Option Content) (pathOf : String → String) :
    List (String × Nat) → Fs → Fs × Bool
  | [], fs => (fs, false)
  | (label, im) :: rest, fs =>
    match conv im with
    | none => (fs, true)
    | some c => saveLoop conv pathOf rest (fsWrite fs (pathOf label) c)

/-! ### `display_test_results` (SaveIterationImages) -/

/-- Path written by `display_test_results`:
`os.path.join(results_dir, 'iter%.3d_%s.png' % (iter, label))`. -/
def testImgPath (results_dir : String) (iter : Nat) (label : String) : String :=
  pathJoin results_dir ("iter" ++ pad3 iter ++ "_" ++ label ++ ".png")

/-- `display_test_results(results_dir, visuals, iter)`: make the
directory (no filesystem-tree model needed: `os.mkdir` creates no
files), then write every visual to `iter%.3d_%s.png` under
`results_dir`. -/
def display_test_results (conv : Nat → Option Content) (results_dir : String)
    (visuals : List (String × Nat)) (iter : Nat) (fs : Fs) : Fs × Bool :=
  saveLoop conv (testImgPath results_dir iter) visuals fs

/-! ### The `Visualizer` class -/

/-- Observable state owned by a `Visualizer` instance together with the
files it touches: the `saved` flag, the image directory path, the log
file path, the log file's content, the image files on disk, and what
was printed to stdout. -/
structure State where
  saved : Bool
  img_dir : String
  log_name : String
  log : String
  fs : Fs
  stdout : String
  deriving Repr, DecidableEq

/-- `Visualizer.__init__(opt)`: cache the name, set `saved = False`,
derive `img_dir` and `log_name` under `{checkpoints_dir}/{name}`, and
append a timestamped header line to the log file (opened with mode
`"a"`, so prior content `log0` is preserved). -/
def init (checkpoints_dir name now : String) (log0 : String) : State :=
  { saved := false
    img_dir := pathJoin (pathJoin checkpoints_dir name) "images"
    log_name := pathJoin (pathJoin checkpoints_dir name) "loss_log.txt"
    log := log0 ++ "================ Training Loss (" ++ now ++ ") ================\n"
    fs := []
    stdout := "" }

/-- `Visualizer.reset()`: set `self.saved = False`. -/
def reset (s : State) : State := { s with saved := false }

/-- Path written by `display_current_results`:
`os.path.join(self.img_dir, 'epoch%.3d_iter%.3d_%s.png' % (epoch, iter, label))`. -/
def imgPath (img_dir : String) (epoch iter : Nat) (label : String) : String :=
  pathJoin img_dir ("epoch" ++ pad3 epoch ++ "_iter" ++ pad3 iter ++ "_" ++ label ++ ".png")

/-- `Visualizer.display_current_results(visuals, epoch, iter, save_result)`:
if `save_result or not self.saved`, set `self.saved = True` and run the
save loop over `visuals`; otherwise do nothing.  The returned `Bool` is
the exception flag of the loop. -/
def display_current_results (conv : Nat → Option Content) (s : State)
    (visuals : List (String × Nat)) (epoch iter : Nat) (save_result : Bool) :
    State × Bool :=
  if save_result ∨ ¬ s.saved then
    let s := { s with saved := true }
    let (fs, err) := saveLoop conv (imgPath s.img_dir epoch iter) visuals s.fs
    ({ s with fs := fs }, err)
  else (s, false)

/-! ### The HTML index builder and `save_images` (SaveImages) -/

/-- Modelled from the spec: the `html.HTML` index builder (`html.py` is
a collaborator of this module, not under `src/`); the spec gives it
`addSection(title)` (`add_header`) and
`addImageRow(filenames, captions, links, width)` (`add_images`).  We
record the calls the source makes on it. -/
inductive WEvent where
  | header (title : String)
  | imageRow (ims txts links : List String) (width : Nat)
  deriving Repr, DecidableEq

/-- The webpage (HTML index builder) handed to `save_images`: its image
directory (`get_image_dir()`) and the recorded builder calls. -/
structure Webpage where
  image_dir : String
  events : List WEvent
  deriving Repr, DecidableEq

/-- The `image_path` argument of `save_images`: the caller passes either
a plain path string or a list of paths. -/
inductive PathArg where
  | str (s : String)
  | list (l : List String)
  deriving Repr, DecidableEq

/-- Python `image_path[0]`: the first element of a list, or the
one-character string at index 0 of a string; `none` models the
`IndexError` raised on an empty argument. -/
def PathArg.first : PathArg → Option String
  | .str s => (s.toList.head?).map fun c => String.mk [c]
  | .list l => l.head?

/-- Result of a `save_images` call that got past `image_path[0]`. -/
structure SaveImagesResult where
  webpage : Webpage
  fs : Fs
  error : Bool
  deriving Repr, DecidableEq

/-- `save_images(webpage, visuals, image_path, aspect_ratio, width,
use_wandb)`: take `image_dir` from the webpage, derive `name` from
`image_path[0]` via `ntpath.basename` and `os.path.splitext`, call
`webpage.add_header(name)`, then run the save loop writing each visual
to `'%s_%s.png' % (name, label)` under `image_dir`.  The source also
accumulates local lists `ims`, `txts`, `links` inside the loop, but
they are dead: the function returns without ever passing them to the
webpage, so they are not observable and not modelled.  `aspect_ratio`,
`width` and `use_wandb` are bound but never read by the body. -/
def save_images (conv : Nat → Option Content) (webpage : Webpage) (fs : Fs)
    (visuals : List (String × Nat)) (image_path : PathArg)
    (aspect_ratio : Dyadic) (width : Nat) (use_wandb : Bool) :
    Option SaveImagesResult :=
  match image_path.first with
  | none => none
  | some p0 =>
    let short_path := ntBasename p0
    let name := splitextRoot short_path
    let webpage := { webpage with events := webpage.events ++ [.header name] }
    let (fs, err) := saveLoop conv
      (fun label => pathJoin webpage.image_dir (name ++ "_" ++ label ++ ".png"))
      visuals fs
    some ⟨webpage, fs, err⟩

/-! ### `print_current_losses` (PrintCurrentLosses)

The scalar arguments of `print_current_losses` are IEEE-754 binary64
values.  Every nonnegative binary64 is exactly a dyadic rational
`m / 2^e`, so the floats enter the model as such pairs (`Dyadic`);
CPython's `'%.3f' % x` prints the exact value of `x` correctly rounded
to three decimals, ties to even.  (The logger only ever formats
nonnegative timings and losses in the claims; negative values would
carry a sign.) -/

/-- Round `num / den` to the nearest natural number, ties to even
(`den` positive). -/
def roundHalfEven (num den : Nat) : Nat :=
  let q := num / den
  let r := num % den
  if 2 * r < den then q
  else if den < 2 * r then q + 1
  else if q % 2 = 0 then q else q + 1

/-- `'%.3f' % x` for a nonnegative binary64 `x`: its exact value
correctly rounded to thousandths, fractional part zero-padded to
width 3. -/
def fmt3 (x : Dyadic) : String :=
  let n := roundHalfEven (1000 * x.m) (2 ^ x.e)
  toString (n / 1000) ++ "." ++ pad3 (n % 1000)

/-- The message line built by `print_current_losses`:
`'(epoch: %d, iters: %d, time: %.3f, data: %.3f) '` followed by
`'%s: %.3f '` for every `(name, value)` pair in order. -/
def lossMessage (epoch iters : Nat) (losses : List (String × Dyadic))
    (t_comp t_data : Dyadic) : String :=
  losses.foldl (fun m kv => m ++ kv.1 ++ ": " ++ fmt3 kv.2 ++ " ")
    ("(epoch: " ++ toString epoch ++ ", iters: " ++ toString iters ++
      ", time: " ++ fmt3 t_comp ++ ", data: " ++ fmt3 t_data ++ ") ")

/-- `Visualizer.print_current_losses(epoch, iters, losses, t_comp, t_data)`:
build the message, `print` it (stdout gets the line plus a newline),
and append the line plus a newline to the log file (opened with mode
`"a"`). -/
def print_current_losses (s : State) (epoch iters : Nat)
    (losses : List (String × Dyadic)) (t_comp t_data : Dyadic) : State :=
  let message := lossMessage epoch iters losses t_comp t_data
  { s with
    stdout := s.stdout ++ message ++ "\n"
    log := s.log ++ message ++ "\n" }

/-- One recorded `print_current_losses` call (its arguments). -/
structure LossCall where
  epoch : Nat
  iters : Nat
  losses : List (String × Dyadic)
  t_comp : Dyadic
  t_data : Dyadic

/-- Run a sequence of `print_current_losses` calls in order. -/
def runLosses (s : State) (calls : List LossCall) : State :=
  calls.foldl
    (fun s c => print_current_losses s c.epoch c.iters c.losses c.t_comp c.t_data) s

/-! ### Helper lemmas -/

theorem fsRead_fsWrite_self (fs : Fs) (p : String) (c : Content) :
    fsRead (fsWrite fs p c) p = some c := by
  simp [fsRead, fsWrite, List.find?]

theorem find?_congr_pred {α : Type} (p q : α → Bool) (l : List α)
    (h : ∀ a, p a = q a) : l.find? p = l.find? q := by
  induction l with
  | nil => rfl
  | cons a tl ih => rw [List.find?_cons, List.find?_cons, h a, ih]

theorem fsRead_fsWrite_ne (fs : Fs) (p q : String) (c : Content) (h : q ≠ p) :
    fsRead (fsWrite fs p c) q = fsRead fs q := by
  have hpq : ¬ p = q := fun hh => h hh.symm
  simp only [fsRead, fsWrite]
  rw [List.find?_cons_of_neg _ (by simpa using hpq), List.find?_filter]
  congr 1
  apply find?_congr_pred
  intro e
  by_cases he : e.1 = q
  · simp [he, h]
  · simp [he]

theorem mem_map_fst_fsWrite (fs : Fs) (p q : String) (c : Content) :
    q ∈ (fsWrite fs p c).map Prod.fst ↔ q = p ∨ q ∈ fs.map Prod.fst := by
  simp only [fsWrite, List.map_cons, List.mem_cons, List.mem_map,
    List.mem_filter]
  constructor
  · rintro (h | ⟨e, ⟨he, _⟩, rfl⟩)
    · exact Or.inl h
    · exact Or.inr ⟨e, he, rfl⟩
  · rintro (h | ⟨e, he, rfl⟩)
    · exact Or.inl h
    · by_cases hq : e.1 = p
      · exact Or.inl hq
      · exact Or.inr ⟨e, ⟨he, by simpa using hq⟩, rfl⟩

theorem saveLoop_isSome_mono (conv : Nat → Option Content)
    (pathOf : String → String) (l : List (String × Nat)) (fs : Fs) (q : String)
    (h : (fsRead fs q).isSome) :
    (fsRead (saveLoop conv pathOf l fs).1 q).isSome := by
  induction l generalizing fs with
  | nil => simpa [saveLoop] using h
  | cons hd tl ih =>
    obtain ⟨label, im⟩ := hd
    cases hc : conv im with
    | none => simpa [saveLoop, hc] using h
    | some c =>
      simp only [saveLoop, hc]
      apply ih
      by_cases hq : q = pathOf label
      · subst hq; simp [fsRead_fsWrite_self]
      · rw [fsRead_fsWrite_ne fs (pathOf label) q c hq]; exact h

theorem saveLoop_total (conv : Nat → Option Content)
    (pathOf : String → String) (l : List (String × Nat)) (fs : Fs)
    (hconv : ∀ p ∈ l, (conv p.2).isSome) :
    (saveLoop conv pathOf l fs).2 = false := by
  induction l generalizing fs with
  | nil => simp [saveLoop]
  | cons hd tl ih =>
    obtain ⟨label, im⟩ := hd
    have him : (conv im).isSome := hconv (label, im) (List.mem_cons_self _ _)
    cases hc : conv im with
    | none => rw [hc] at him; simp at him
    | some c =>
      simp only [saveLoop, hc]
      exact ih _ fun p hp => hconv p (List.mem_cons_of_mem _ hp)

theorem saveLoop_written (conv : Nat → Option Content)
    (pathOf : String → String) (l : List (String × Nat)) (fs : Fs)
    (hconv : ∀ p ∈ l, (conv p.2).isSome) :
    ∀ lp ∈ l, (fsRead (saveLoop conv pathOf l fs).1 (pathOf lp.1)).isSome := by
  induction l generalizing fs with
  | nil => simp
  | cons hd tl ih =>
    obtain ⟨label, im⟩ := hd
    have him : (conv im).isSome := hconv (label, im) (List.mem_cons_self _ _)
    cases hc : conv im with
    | none => rw [hc] at him; simp at him
    | some c =>
      intro lp hlp
      simp only [saveLoop, hc]
      rcases List.mem_cons.mp hlp with h | h
      · subst h
        exact saveLoop_isSome_mono _ _ _ _ _ (by simp [fsRead_fsWrite_self])
      · exact ih _ (fun p hp => hconv p (List.mem_cons_of_mem _ hp)) lp h

theorem saveLoop_paths (conv : Nat → Option Content)
    (pathOf : String → String) (l : List (String × Nat)) (fs : Fs) (q : String)
    (h : q ∈ (saveLoop conv pathOf l fs).1.map Prod.fst) :
    q ∈ fs.map Prod.fst ∨ ∃ lp ∈ l, q = pathOf lp.1 := by
  induction l generalizing fs with
  | nil => exact Or.inl (by simpa [saveLoop] using h)
  | cons hd tl ih =>
    obtain ⟨label, im⟩ := hd
    cases hc : conv im with
    | none =>
      simp only [saveLoop, hc] at h
      exact Or.inl h
    | some c =>
      simp only [saveLoop, hc] at h
      rcases ih _ h with h' | ⟨lp, hlp, rfl⟩
      · rcases (mem_map_fst_fsWrite _ _ _ _).mp h' with rfl | h''
        · exact Or.inr ⟨(label, im), List.mem_cons_self _ _, rfl⟩
        · exact Or.inl h''
      · exact Or.inr ⟨lp, List.mem_cons_of_mem _ hlp, rfl⟩

theorem saveLoop_fail (conv : Nat → Option Content)
    (pathOf : String → String) (pre post : List (String × Nat))
    (label : String) (im : Nat) (fs : Fs)
    (hpre : ∀ p ∈ pre, (conv p.2).isSome) (him : conv im = none) :
    saveLoop conv pathOf (pre ++ (label, im) :: post) fs =
      ((saveLoop conv pathOf pre fs).1, true) := by
  induction pre generalizing fs with
  | nil => simp [saveLoop, him]
  | cons hd tl ih =>
    obtain ⟨l0, i0⟩ := hd
    have h0 : (conv i0).isSome := hpre (l0, i0) (List.mem_cons_self _ _)
    cases hc : conv i0 with
    | none => rw [hc] at h0; simp at h0
    | some c =>
      simp only [List.cons_append, saveLoop, hc]
      exact ih _ fun p hp => hpre p (List.mem_cons_of_mem _ hp)

theorem display_cond_true (conv : Nat → Option Content) (s : State)
    (visuals : List (String × Nat)) (epoch iter : Nat) (save_result : Bool)
    (h : save_result = true ∨ s.saved = false) :
    display_current_results conv s visuals epoch iter save_result =
      ({ s with
          saved := true
          fs := (saveLoop conv (imgPath s.img_dir epoch iter) visuals s.fs).1 },
       (saveLoop conv (imgPath s.img_dir epoch iter) visuals s.fs).2) := by
  have hc : save_result = true ∨ ¬ (s.saved = true) := by
    rcases h with h | h
    · exact Or.inl h
    · exact Or.inr (by simp [h])
  unfold display_current_results
  rw [if_pos hc]

theorem display_cond_false (conv : Nat → Option Content) (s : State)
    (visuals : List (String × Nat)) (epoch iter : Nat) (save_result : Bool)
    (h : ¬ (save_result = true ∨ s.saved = false)) :
    display_current_results conv s visuals epoch iter save_result = (s, false) := by
  have hsr : save_result = false := by
    cases hb : save_result
    · rfl
    · exact absurd (Or.inl hb) h
  have hsv : s.saved = true := by
    cases hb : s.saved
    · exact absurd (Or.inr hb) h
    · rfl
  unfold display_current_results
  rw [if_neg]
  rintro (hc | hc)
  · rw [hsr] at hc; exact Bool.false_ne_true hc
  · exact hc hsv

/-- Concatenation of a list of log lines. -/
def concatLines (l : List String) : String := l.foldr (· ++ ·) ""

theorem runLosses_log (calls : List LossCall) (s : State) :
    (runLosses s calls).log =
      s.log ++ concatLines (calls.map fun c =>
        lossMessage c.epoch c.iters c.losses c.t_comp c.t_data ++ "\n") := by
  induction calls generalizing s with
  | nil => simp [runLosses, concatLines]
  | cons hd tl ih =>
    have hstep : runLosses s (hd :: tl) =
        runLosses
          (print_current_losses s hd.epoch hd.iters hd.losses hd.t_comp hd.t_data)
          tl := rfl
    rw [hstep, ih]
    simp [print_current_losses, concatLines, String.append_assoc]

theorem save_images_list_cons (conv : Nat → Option Content) (webpage : Webpage)
    (fs : Fs) (visuals : List (String × Nat)) (p : String) (rest : List String)
    (ar : Dyadic) (w : Nat) (uw : Bool) :
    save_images conv webpage fs visuals (.list (p :: rest)) ar w uw =
      some ⟨{ webpage with events := webpage.events ++
          [WEvent.header (splitextRoot (ntBasename p))] },
        (saveLoop conv (fun label => pathJoin webpage.image_dir
          (splitextRoot (ntBasename p) ++ "_" ++ label ++ ".png")) visuals fs).1,
        (saveLoop conv (fun label => pathJoin webpage.image_dir
          (splitextRoot (ntBasename p) ++ "_" ++ label ++ ".png")) visuals fs).2⟩ :=
  rfl

/-! ## Claims -/

/-- C4: `display_current_results` writes images if and only if
`save_result` is true or the `saved` flag is false; when neither
condition holds the call is a no-op (state returned unchanged, no
error); when it acts, every `(label, image)` pair of the VisualSet ends
up on disk at `{img_dir}/epoch{epoch:03d}_iter{iter:03d}_{label}.png`,
no path outside that family is added, and the `saved` flag is true
afterwards. -/
theorem C4_display_writes_iff (conv : Nat → Option Content) (s : State)
    (visuals : List (String × Nat)) (epoch iter : Nat) (save_result : Bool)
    (hconv : ∀ p ∈ visuals, (conv p.2).isSome) :
    (¬ (save_result = true ∨ s.saved = false) →
      display_current_results conv s visuals epoch iter save_result = (s, false)) ∧
    ((save_result = true ∨ s.saved = false) →
      (display_current_results conv s visuals epoch iter save_result).2 = false ∧
      (display_current_results conv s visuals epoch iter save_result).1.saved = true ∧
      (∀ lp ∈ visuals,
        (fsRead (display_current_results conv s visuals epoch iter save_result).1.fs
          (imgPath s.img_dir epoch iter lp.1)).isSome) ∧
      (∀ q, q ∈ (display_current_results conv s visuals epoch iter
            save_result).1.fs.map Prod.fst →
        q ∈ s.fs.map Prod.fst ∨
          ∃ lp ∈ visuals, q = imgPath s.img_dir epoch iter lp.1)) := by
  constructor
  · exact display_cond_false conv s visuals epoch iter save_result
  · intro h
    rw [display_cond_true conv s visuals epoch iter save_result h]
    refine ⟨saveLoop_total conv _ visuals s.fs hconv, rfl, ?_, ?_⟩
    · exact saveLoop_written conv _ visuals s.fs hconv
    · exact fun q => saveLoop_paths conv _ visuals s.fs q

/-- C4 witness: a concrete run where `save_result = true` forces the
write pass of a one-image VisualSet. -/
theorem C4_display_writes_iff_witness :
    (∀ p ∈ [("real", 7)],
      (((fun im => some (im, 0)) : Nat → Option Content) p.2).isSome) ∧
    ((¬ ((true : Bool) = true ∨ (init "ck" "exp" "t" "").saved = false) →
      display_current_results (fun im => some (im, 0)) (init "ck" "exp" "t" "")
        [("real", 7)] 2 5 true = (init "ck" "exp" "t" "", false)) ∧
    (((true : Bool) = true ∨ (init "ck" "exp" "t" "").saved = false) →
      (display_current_results (fun im => some (im, 0)) (init "ck" "exp" "t" "")
        [("real", 7)] 2 5 true).2 = false ∧
      (display_current_results (fun im => some (im, 0)) (init "ck" "exp" "t" "")
        [("real", 7)] 2 5 true).1.saved = true ∧
      (∀ lp ∈ [("real", 7)],
        (fsRead (display_current_results (fun im => some (im, 0))
            (init "ck" "exp" "t" "") [("real", 7)] 2 5 true).1.fs
          (imgPath (init "ck" "exp" "t" "").img_dir 2 5 lp.1)).isSome) ∧
      (∀ q, q ∈ (display_current_results (fun im => some (im, 0))
            (init "ck" "exp" "t" "") [("real", 7)] 2 5 true).1.fs.map Prod.fst →
        q ∈ (init "ck" "exp" "t" "").fs.map Prod.fst ∨
          ∃ lp ∈ [("real", 7)],
            q = imgPath (init "ck" "exp" "t" "").img_dir 2 5 lp.1))) :=
  ⟨by decide,
   C4_display_writes_iff (fun im => some (im, 0)) (init "ck" "exp" "t" "")
     [("real", 7)] 2 5 true (by decide)⟩

/-- C5: `reset` followed by `display_current_results` with
`save_result = false` is the very same call as
`display_current_results` with `save_result = true` on the un-reset
state, and `reset` itself touches nothing but the `saved` flag (log,
stdout, files and paths are untouched; no I/O). -/
theorem C5_reset_forces_write (conv : Nat → Option Content) (s : State)
    (visuals : List (String × Nat)) (epoch iter : Nat) :
    display_current_results conv (reset s) visuals epoch iter false =
      display_current_results conv s visuals epoch iter true ∧
    (reset s).saved = false ∧ (reset s).fs = s.fs ∧ (reset s).log = s.log ∧
    (reset s).stdout = s.stdout ∧ (reset s).img_dir = s.img_dir ∧
    (reset s).log_name = s.log_name := by
  refine ⟨?_, rfl, rfl, rfl, rfl, rfl, rfl⟩
  rw [display_cond_true conv (reset s) visuals epoch iter false (Or.inr rfl),
    display_cond_true conv s visuals epoch iter true (Or.inl rfl)]
  rfl

/-- C6: the log file is only ever appended to: each
`print_current_losses` call extends the previous log content, and
starting from a fresh log, `init` followed by `N` calls leaves the log
equal to the header line followed by exactly the `N` message lines in
call order. -/
theorem C6_log_append_only (checkpoints_dir name now : String)
    (calls : List LossCall) :
    (runLosses (init checkpoints_dir name now "") calls).log =
      "================ Training Loss (" ++ now ++ ") ================\n" ++
        concatLines (calls.map fun c =>
          lossMessage c.epoch c.iters c.losses c.t_comp c.t_data ++ "\n") ∧
    (∀ (s : State) (c : LossCall),
      (print_current_losses s c.epoch c.iters c.losses c.t_comp c.t_data).log =
        s.log ++ (lossMessage c.epoch c.iters c.losses c.t_comp c.t_data ++ "\n")) := by
  refine ⟨?_, fun s c => by simp [print_current_losses, String.append_assoc]⟩
  rw [runLosses_log]
  simp [init]

/-- C7: the path written by `display_test_results` is the deterministic
function `testImgPath` of directory, iteration and label alone, so a
second call with the same iteration and label writes the very same
path: the file then holds only the second call's content and the set of
paths on disk does not grow. -/
theorem C7_same_iter_overwrites (conv : Nat → Option Content)
    (results_dir label : String) (im1 im2 : Nat) (iter : Nat) (fs : Fs)
    (c1 c2 : Content) (h1 : conv im1 = some c1) (h2 : conv im2 = some c2) :
    ∃ fs1,
      display_test_results conv results_dir [(label, im1)] iter fs = (fs1, false) ∧
      display_test_results conv results_dir [(label, im2)] iter fs1 =
        (fsWrite fs1 (testImgPath results_dir iter label) c2, false) ∧
      fsRead (fsWrite fs1 (testImgPath results_dir iter label) c2)
        (testImgPath results_dir iter label) = some c2 ∧
      (∀ q, q ∈ (fsWrite fs1 (testImgPath results_dir iter label) c2).map Prod.fst ↔
        q ∈ fs1.map Prod.fst) := by
  refine ⟨fsWrite fs (testImgPath results_dir iter label) c1, ?_, ?_, ?_, ?_⟩
  · simp [display_test_results, saveLoop, h1]
  · simp [display_test_results, saveLoop, h2]
  · exact fsRead_fsWrite_self _ _ _
  · intro q
    rw [mem_map_fst_fsWrite]
    constructor
    · rintro (rfl | hq)
      · exact (mem_map_fst_fsWrite fs _ _ c1).mpr (Or.inl rfl)
      · exact hq
    · exact fun hq => Or.inr hq

/-- C7 witness: a concrete double save of label `"fake"` at iteration 5. -/
theorem C7_same_iter_overwrites_witness :
    (((fun im => if im = 1 then some ((10, 0) : Content) else
        if im = 2 then some ((20, 0) : Content) else none) : Nat → Option Content)
        1 = some (10, 0)) ∧
    (((fun im => if im = 1 then some ((10, 0) : Content) else
        if im = 2 then some ((20, 0) : Content) else none) : Nat → Option Content)
        2 = some (20, 0)) ∧
    (∃ fs1,
      display_test_results
        (fun im => if im = 1 then some ((10, 0) : Content) else
          if im = 2 then some ((20, 0) : Content) else none)
        "res" [("fake", 1)] 5 [] = (fs1, false) ∧
      display_test_results
        (fun im => if im = 1 then some ((10, 0) : Content) else
          if im = 2 then some ((20, 0) : Content) else none)
        "res" [("fake", 2)] 5 fs1 =
        (fsWrite fs1 (testImgPath "res" 5 "fake") (20, 0), false) ∧
      fsRead (fsWrite fs1 (testImgPath "res" 5 "fake") (20, 0))
        (testImgPath "res" 5 "fake") = some (20, 0) ∧
      (∀ q, q ∈ (fsWrite fs1 (testImgPath "res" 5 "fake") (20, 0)).map Prod.fst ↔
        q ∈ fs1.map Prod.fst)) :=
  ⟨rfl, rfl,
   C7_same_iter_overwrites
     (fun im => if im = 1 then some ((10, 0) : Content) else
       if im = 2 then some ((20, 0) : Content) else none)
     "res" "fake" 1 2 5 [] (10, 0) (20, 0) rfl rfl⟩

/-- C9: `save_images` never reads its `aspect_ratio`, `width` or
`use_wandb` arguments: two calls differing only in those three
arguments return the identical result (same files with the same
contents, same index-builder calls, no resizing anywhere). -/
theorem C9_unused_parameters (conv : Nat → Option Content) (webpage : Webpage)
    (fs : Fs) (visuals : List (String × Nat)) (image_path : PathArg)
    (a1 a2 : Dyadic) (w1 w2 : Nat) (u1 u2 : Bool) :
    save_images conv webpage fs visuals image_path a1 w1 u1 =
      save_images conv webpage fs visuals image_path a2 w2 u2 := rfl

/-- C2 counterexample: with a two-image VisualSet whose second image
fails to convert, `display_current_results` raises, yet the first image
is already on disk and the state has changed — the call is not atomic. -/
theorem C2_counterexample :
    (display_current_results
        (fun im => if im = 1 then some ((1, 1) : Content) else none)
        (init "ck" "exp" "t" "") [("A", 1), ("B", 2)] 1 1 true).2 = true ∧
    (display_current_results
        (fun im => if im = 1 then some ((1, 1) : Content) else none)
        (init "ck" "exp" "t" "") [("A", 1), ("B", 2)] 1 1 true).1.fs ≠
      (init "ck" "exp" "t" "").fs ∧
    fsRead (display_current_results
        (fun im => if im = 1 then some ((1, 1) : Content) else none)
        (init "ck" "exp" "t" "") [("A", 1), ("B", 2)] 1 1 true).1.fs
      (imgPath (init "ck" "exp" "t" "").img_dir 1 1 "A") = some (1, 1) := by
  decide

/-- C2 amended: a save call fails fast — at the first failing image the
error propagates and no later image is attempted — but there is no
rollback: all images before the failing one are written and remain on
disk (shown for `display_current_results`; `save_images` and
`display_test_results` run the identical loop). -/
theorem C2_fail_fast_keeps_prefix (conv : Nat → Option Content) (s : State)
    (pre post : List (String × Nat)) (label : String) (im : Nat)
    (epoch iter : Nat)
    (hpre : ∀ p ∈ pre, (conv p.2).isSome) (him : conv im = none) :
    display_current_results conv s (pre ++ (label, im) :: post) epoch iter true =
      ({ s with
          saved := true
          fs := (saveLoop conv (imgPath s.img_dir epoch iter) pre s.fs).1 },
        true) := by
  rw [display_cond_true conv s _ epoch iter true (Or.inl rfl),
    saveLoop_fail conv _ pre post label im s.fs hpre him]

/-- C2 witness: the amended statement at a concrete failing run. -/
theorem C2_fail_fast_keeps_prefix_witness :
    (∀ p ∈ [("A", 1)],
      (((fun im => if im = 1 then some ((1, 1) : Content) else none) :
        Nat → Option Content) p.2).isSome) ∧
    ((fun im => if im = 1 then some ((1, 1) : Content) else none) :
      Nat → Option Content) 2 = none ∧
    display_current_results
        (fun im => if im = 1 then some ((1, 1) : Content) else none)
        (init "ck" "exp" "t" "") ([("A", 1)] ++ ("B", 2) :: []) 3 4 true =
      ({ init "ck" "exp" "t" "" with
          saved := true
          fs := (saveLoop (fun im => if im = 1 then some ((1, 1) : Content) else none)
            (imgPath (init "ck" "exp" "t" "").img_dir 3 4) [("A", 1)]
            (init "ck" "exp" "t" "").fs).1 },
        true) :=
  ⟨by decide, by decide,
   C2_fail_fast_keeps_prefix
     (fun im => if im = 1 then some ((1, 1) : Content) else none)
     (init "ck" "exp" "t" "") [("A", 1)] [] "B" 2 3 4 (by decide) (by decide)⟩

/-- C3 counterexample: at LossSet `{"G": 1.2345, "D": 0.5}`, epoch 3,
iters 10, `t_comp` 0.100, `t_data` 0.020 (each float taken at its exact
binary64 value), the produced line is not the claimed one: the double
nearest 1.2345 is 5559693739988877/2^52 ≈ 1.23449999999999993, which
`%.3f` rounds to `1.234`, not `1.235`. -/
theorem C3_counterexample :
    lossMessage 3 10 [("G", ⟨5559693739988877, 52⟩), ("D", ⟨1, 1⟩)]
      ⟨3602879701896397, 55⟩ ⟨5764607523034235, 58⟩ ≠
      "(epoch: 3, iters: 10, time: 0.100, data: 0.020) G: 1.235 D: 0.500 " := by
  decide

/-- C3 amended: at those inputs the produced line is exactly
`(epoch: 3, iters: 10, time: 0.100, data: 0.020) G: 1.234 D: 0.500 `
(G rounds to 1.234, the binary64 of 1.2345 being below the decimal
midpoint); the line plus a newline goes to stdout and is appended to
the log file. -/
theorem C3_amended_line (s : State) :
    lossMessage 3 10 [("G", ⟨5559693739988877, 52⟩), ("D", ⟨1, 1⟩)]
      ⟨3602879701896397, 55⟩ ⟨5764607523034235, 58⟩ =
      "(epoch: 3, iters: 10, time: 0.100, data: 0.020) G: 1.234 D: 0.500 " ∧
    (print_current_losses s 3 10 [("G", ⟨5559693739988877, 52⟩), ("D", ⟨1, 1⟩)]
      ⟨3602879701896397, 55⟩ ⟨5764607523034235, 58⟩).stdout =
      s.stdout ++
        "(epoch: 3, iters: 10, time: 0.100, data: 0.020) G: 1.234 D: 0.500 \n" ∧
    (print_current_losses s 3 10 [("G", ⟨5559693739988877, 52⟩), ("D", ⟨1, 1⟩)]
      ⟨3602879701896397, 55⟩ ⟨5764607523034235, 58⟩).log =
      s.log ++
        "(epoch: 3, iters: 10, time: 0.100, data: 0.020) G: 1.234 D: 0.500 \n" := by
  have hm : lossMessage 3 10 [("G", ⟨5559693739988877, 52⟩), ("D", ⟨1, 1⟩)]
      ⟨3602879701896397, 55⟩ ⟨5764607523034235, 58⟩ =
      "(epoch: 3, iters: 10, time: 0.100, data: 0.020) G: 1.234 D: 0.500 " := by
    decide
  refine ⟨hm, ?_, ?_⟩ <;>
    simp [print_current_losses, hm, String.append_assoc]

/-- C10: `display_current_results` sets the `saved` flag before the
write loop, so when conversion fails partway through, the error escapes
with the flag already true and the earlier labels' images on disk; a
subsequent call with `save_result = false` is then a no-op, never
retrying the failed images. -/
theorem C10_flag_set_before_writes (conv : Nat → Option Content) (s : State)
    (pre post : List (String × Nat)) (label : String) (im : Nat)
    (epoch iter : Nat) (save_result : Bool)
    (visuals2 : List (String × Nat)) (epoch2 iter2 : Nat)
    (hcond : save_result = true ∨ s.saved = false)
    (hpre : ∀ p ∈ pre, (conv p.2).isSome) (him : conv im = none) :
    (display_current_results conv s (pre ++ (label, im) :: post)
      epoch iter save_result).2 = true ∧
    (display_current_results conv s (pre ++ (label, im) :: post)
      epoch iter save_result).1.saved = true ∧
    (∀ lp ∈ pre,
      (fsRead (display_current_results conv s (pre ++ (label, im) :: post)
          epoch iter save_result).1.fs
        (imgPath s.img_dir epoch iter lp.1)).isSome) ∧
    display_current_results conv
        (display_current_results conv s (pre ++ (label, im) :: post)
          epoch iter save_result).1
        visuals2 epoch2 iter2 false =
      ((display_current_results conv s (pre ++ (label, im) :: post)
          epoch iter save_result).1, false) := by
  rw [display_cond_true conv s _ epoch iter save_result hcond,
    saveLoop_fail conv _ pre post label im s.fs hpre him]
  refine ⟨rfl, rfl, ?_, ?_⟩
  · exact saveLoop_written conv _ pre s.fs hpre
  · apply display_cond_false
    rintro (hc | hc)
    · exact Bool.false_ne_true hc
    · simp at hc

/-- C10 witness: the concrete failing run of C2, followed by a
`save_result = false` call that is a no-op. -/
theorem C10_flag_set_before_writes_witness :
    ((true : Bool) = true ∨ (init "ck" "exp" "t" "").saved = false) ∧
    (∀ p ∈ [("A", 1)],
      (((fun im => if im = 1 then some ((1, 1) : Content) else none) :
        Nat → Option Content) p.2).isSome) ∧
    ((fun im => if im = 1 then some ((1, 1) : Content) else none) :
      Nat → Option Content) 2 = none ∧
    ((display_current_results
        (fun im => if im = 1 then some ((1, 1) : Content) else none)
        (init "ck" "exp" "t" "") ([("A", 1)] ++ ("B", 2) :: []) 7 8 true).2 = true ∧
    (display_current_results
        (fun im => if im = 1 then some ((1, 1) : Content) else none)
        (init "ck" "exp" "t" "") ([("A", 1)] ++ ("B", 2) :: []) 7 8 true).1.saved = true ∧
    (∀ lp ∈ [("A", 1)],
      (fsRead (display_current_results
          (fun im => if im = 1 then some ((1, 1) : Content) else none)
          (init "ck" "exp" "t" "") ([("A", 1)] ++ ("B", 2) :: []) 7 8 true).1.fs
        (imgPath (init "ck" "exp" "t" "").img_dir 7 8 lp.1)).isSome) ∧
    display_current_results
        (fun im => if im = 1 then some ((1, 1) : Content) else none)
        (display_current_results
          (fun im => if im = 1 then some ((1, 1) : Content) else none)
          (init "ck" "exp" "t" "") ([("A", 1)] ++ ("B", 2) :: []) 7 8 true).1
        [("B", 2)] 9 9 false =
      ((display_current_results
          (fun im => if im = 1 then some ((1, 1) : Content) else none)
          (init "ck" "exp" "t" "") ([("A", 1)] ++ ("B", 2) :: []) 7 8 true).1,
        false)) :=
  ⟨Or.inl rfl, by decide, by decide,
   C10_flag_set_before_writes
     (fun im => if im = 1 then some ((1, 1) : Content) else none)
     (init "ck" "exp" "t" "") [("A", 1)] [] "B" 2 7 8 true [("B", 2)] 9 9
     (Or.inl rfl) (by decide) (by decide)⟩

/-- C1 (code bug): on a two-image VisualSet with an index builder
supplied, `save_images` writes both images to disk and adds the section
header, but the only call recorded on the builder is that header: the
local `ims`, `txts`, `links` lists are filled and then discarded
without ever being passed to the webpage, so no filename, label or link
is recorded. -/
theorem C1_header_only_no_rows :
    (save_images ((fun im => some (im, 0)) : Nat → Option Content)
        ⟨"imgs", []⟩ [] [("real", 5), ("fake", 6)]
        (.list ["data/sample.png"]) ⟨1, 0⟩ 512 false).map
      (fun r => (r.webpage.events, r.fs, r.error)) =
      some ([WEvent.header "sample"],
        [("imgs/sample_fake.png", (6, 0)), ("imgs/sample_real.png", (5, 0))],
        false) ∧
    ∀ ims txts links w, WEvent.imageRow ims txts links w ∉
      [WEvent.header "sample"] := by
  refine ⟨by decide, ?_⟩
  intro ims txts links w h
  exact WEvent.noConfusion (List.mem_singleton.mp h)

/-- C8 counterexample: when the hint path is a plain string,
`image_path[0]` is its first character, so the derived base name is
that character, not the directory-and-extension-stripped name: for the
hint `"dir/sample.png"` the image of label `"real"` is written to
`imgs/d_real.png`, while stripping would give base name `"sample"`. -/
theorem C8_counterexample :
    (save_images ((fun im => some (im, 0)) : Nat → Option Content)
        ⟨"imgs", []⟩ [] [("real", 5)]
        (.str "dir/sample.png") ⟨1, 0⟩ 512 false).map
      (fun r => (r.webpage.events, r.fs.map Prod.fst)) =
      some ([WEvent.header "d"], ["imgs/d_real.png"]) ∧
    splitextRoot (ntBasename "dir/sample.png") = "sample" ∧
    ("d" : String) ≠ "sample" := by
  decide

/-- C8 amended: when the hint is a list of paths, `save_images` derives
the base name by stripping directory and extension from the first path
of the list, and writes each image of the VisualSet to
`{baseName}_{label}.png` in the webpage's image directory after
converting it with the shared converter (when the hint is a plain
string, the indexing takes its first character instead). -/
theorem C8_list_hint_base_name (conv : Nat → Option Content)
    (webpage : Webpage) (fs : Fs) (visuals : List (String × Nat))
    (p : String) (rest : List String) (ar : Dyadic) (w : Nat) (uw : Bool)
    (hconv : ∀ q ∈ visuals, (conv q.2).isSome) :
    save_images conv webpage fs visuals (.list (p :: rest)) ar w uw =
      some ⟨{ webpage with events := webpage.events ++
          [WEvent.header (splitextRoot (ntBasename p))] },
        (saveLoop conv (fun label => pathJoin webpage.image_dir
          (splitextRoot (ntBasename p) ++ "_" ++ label ++ ".png")) visuals fs).1,
        false⟩ ∧
    (∀ lp ∈ visuals,
      (fsRead (saveLoop conv (fun label => pathJoin webpage.image_dir
          (splitextRoot (ntBasename p) ++ "_" ++ label ++ ".png")) visuals fs).1
        (pathJoin webpage.image_dir
          (splitextRoot (ntBasename p) ++ "_" ++ lp.1 ++ ".png"))).isSome) := by
  constructor
  · rw [save_images_list_cons, saveLoop_total conv _ visuals fs hconv]
  · exact saveLoop_written conv _ visuals fs hconv

/-- C8 witness: the amended statement at a concrete list-hint call. -/
theorem C8_list_hint_base_name_witness :
    (∀ q ∈ [("real", 5)],
      (((fun im => some (im, 0)) : Nat → Option Content) q.2).isSome) ∧
    (save_images ((fun im => some (im, 0)) : Nat → Option Content)
        ⟨"imgs", []⟩ [] [("real", 5)] (.list ["data/sample.png"]) ⟨1, 0⟩ 512 false =
      some ⟨{ Webpage.mk "imgs" [] with events := [] ++
          [WEvent.header (splitextRoot (ntBasename "data/sample.png"))] },
        (saveLoop ((fun im => some (im, 0)) : Nat → Option Content)
          (fun label => pathJoin (Webpage.mk "imgs" ([] : List WEvent)).image_dir
            (splitextRoot (ntBasename "data/sample.png") ++ "_" ++ label ++ ".png"))
          [("real", 5)] []).1,
        false⟩ ∧
    (∀ lp ∈ [("real", 5)],
      (fsRead (saveLoop ((fun im => some (im, 0)) : Nat → Option Content)
          (fun label => pathJoin (Webpage.mk "imgs" ([] : List WEvent)).image_dir
            (splitextRoot (ntBasename "data/sample.png") ++ "_" ++ label ++ ".png"))
          [("real", 5)] []).1
        (pathJoin (Webpage.mk "imgs" ([] : List WEvent)).image_dir
          (splitextRoot (ntBasename "data/sample.png") ++ "_" ++ lp.1 ++ ".png"))).isSome)) :=
  ⟨by decide,
   C8_list_hint_base_name (fun im => some (im, 0)) (Webpage.mk "imgs" [])
     [] [("real", 5)] "data/sample.png" [] ⟨1, 0⟩ 512 false (by decide)⟩

end Visualizer
